import Mathlib

/-!
Verification of the gomemcached client library.

The Go sources consist of `memcached.go` (client, connection pool, protocol
codec) and a selector file (`GoServer` with `PickServer` / `SetServers`).
Strings of bytes are modelled as `List Nat`; the Go error values become the
inductive `MemErr`, where `MemErr.errorf` models a fresh error allocated by
`fmt.Errorf` (such an error compares unequal, by Go interface identity, to
every package-level sentinel error, whatever its message).
-/

namespace Gomemcached

/-- Bytes of an ASCII string, for the protocol literals. -/
def strBytes (s : String) : List Nat := s.toList.map Char.toNat

/-- Models `CTRL = []byte("\r\n")` from memcached.go. -/
def CTRL : List Nat := strBytes "\r\n"

/-- Models `SPACE = []byte(" ")` from memcached.go. -/
def SPACE : List Nat := strBytes " "

/-- Models `RESULT_STORED = []byte("STORED\r\n")`. -/
def RESULT_STORED : List Nat := strBytes "STORED\r\n"

/-- Models `RESULT_NOT_STORED = []byte("NOT_STORED\r\n")`. -/
def RESULT_NOT_STORED : List Nat := strBytes "NOT_STORED\r\n"

/-- Models `RESULT_NOT_FOUND = []byte("NOT_FOUND\r\n")`. -/
def RESULT_NOT_FOUND : List Nat := strBytes "NOT_FOUND\r\n"

/-- Models `RESULT_END = []byte("END\r\n")`. -/
def RESULT_END : List Nat := strBytes "END\r\n"

/-- Models `RESULT_DELETE_OK = []byte("DELETED\r\n")`. -/
def RESULT_DELETE_OK : List Nat := strBytes "DELETED\r\n"

/-- The Go error values of the package.  The sentinel constructors model the
package-level `errors.New` values; `errorf msg` models an error freshly
allocated by `fmt.Errorf` carrying message bytes `msg` — by Go interface
identity such an error is distinct from every sentinel, which the inductive
encoding reflects.  `scanErr` models a non-nil error returned by
`fmt.Sscanf`, `readErr` a failed `ReadSlice` (the stream ends with no
delimiter), `dialErr` a failed `net.DialTimeout`. -/
inductive MemErr where
  | cacheMiss
  | casConflict
  | notStored
  | serverError
  | noStats
  | malformedKey
  | noServers
  | noServer
  | errorf (msg : List Nat)
  | scanErr
  | readErr
  | dialErr
  deriving DecidableEq, Repr

/-- Models `resumeableError` from memcached.go: nil and the four sentinels
`ErrCacheMiss`, `ErrNotStored`, `ErrCASConflict`, `ErrMalformedKey` are
resumable; every other error (including any `fmt.Errorf` value) is not. -/
def resumeableError : Option MemErr → Bool
  | none => true
  | some MemErr.cacheMiss => true
  | some MemErr.notStored => true
  | some MemErr.casConflict => true
  | some MemErr.malformedKey => true
  | some _ => false

/-- The `Item` struct.  `Flags` is a `uint32` (value < 2^32 in well-formed
items), `Exporation` an `int32`. -/
structure Item where
  Key : List Nat
  Value : List Nat
  Flags : Nat
  Exporation : Int
  deriving DecidableEq, Repr

/-- One side of a connection as the codec sees it: `input` is the byte
stream the server delivers (its end models EOF), `wbuf` the bufio writer
buffer, `sent` the bytes flushed onto the socket. -/
structure Conn where
  input : List Nat
  wbuf : List Nat
  sent : List Nat
  deriving DecidableEq, Repr

/-- A buffered write (`rw.Write` / `fmt.Fprintf` into the bufio writer):
appends to the write buffer, cannot fail. -/
def Conn.write (c : Conn) (bs : List Nat) : Conn :=
  { c with wbuf := c.wbuf ++ bs }

/-- Models `rw.Flush()`: moves the write buffer onto the socket. -/
def Conn.flush (c : Conn) : Conn :=
  { c with wbuf := [], sent := c.sent ++ c.wbuf }

/-- Split a byte stream at the first `'\n'` (byte 10), keeping the newline
with the left part, as `bufio.ReadSlice('\n')` does. -/
def splitAtNL : List Nat → Option (List Nat × List Nat)
  | [] => none
  | b :: rest =>
    if b = 10 then some ([10], rest)
    else
      match splitAtNL rest with
      | none => none
      | some (l, r) => some (b :: l, r)

/-- Models `rw.ReadSlice('\n')`: returns the line through the first newline, or an
error when the stream ends without one. -/
def Conn.readSlice (c : Conn) : Except MemErr (List Nat × Conn) :=
  match splitAtNL c.input with
  | none => Except.error MemErr.readErr
  | some (line, rest) => Except.ok (line, { c with input := rest })

/-- Models `ioutil.ReadAll(io.LimitReader(r, n))`: reads up to `n` bytes; reaching
the end of the stream early is not an error. -/
def Conn.readN (c : Conn) (n : Nat) : List Nat × Conn :=
  (c.input.take n, { c with input := c.input.drop n })

/-- Decimal digits of a natural number, as bytes (`%d` for an unsigned
value). -/
def natToBytes (n : Nat) : List Nat := (Nat.toDigits 10 n).map Char.toNat

/-- Models `%d` for a signed value (`int32 Exporation`): minus sign then digits. -/
def intToBytes (i : Int) : List Nat :=
  if i < 0 then 45 :: natToBytes i.natAbs else natToBytes i.natAbs

/-- Models `checkKey`'s scan loop.  Go iterates `for _, v := range key` over runes;
a rune lies in the accepted range `0x21..0x7e` exactly when it is a single
byte in that range, and any rune outside it begins with a byte outside it
(runes ≤ 0x20 are those single bytes, rune 0x7f is byte 0x7f, runes ≥ 0x80
and invalid-UTF-8 replacement runes begin with a byte ≥ 0x80), so the
rune-level scan rejects exactly when the byte-level scan does and the model
scans bytes. -/
def checkKeyLoop : List Nat → Option MemErr
  | [] => none
  | v :: rest =>
    if v ≤ 0x20 ∨ 0x7f ≤ v then some MemErr.malformedKey
    else checkKeyLoop rest

/-- Models `checkKey` from memcached.go: reject keys longer than 250 bytes, then
scan for a character ≤ `' '` or ≥ `0x7f`. -/
def checkKey (key : List Nat) : Option MemErr :=
  if key.length > 250 then some MemErr.malformedKey
  else checkKeyLoop key

/-- One bit step of the reflected CRC-32 computation with the IEEE
polynomial `0xEDB88320`. -/
def crc32Bit (c : Nat) : Nat :=
  if c % 2 = 1 then (c / 2) ^^^ 0xEDB88320 else c / 2

/-- Fold one byte into the running CRC (`hash/crc32` table-driven update,
expressed bit-at-a-time, which computes the same function). -/
def crc32Byte (crc b : Nat) : Nat :=
  crc32Bit (crc32Bit (crc32Bit (crc32Bit
    (crc32Bit (crc32Bit (crc32Bit (crc32Bit (crc ^^^ b % 256))))))))

/-- Models `crc32.ChecksumIEEE`: initial value `0xFFFFFFFF`, byte folds, final
complement. -/
def crc32 (data : List Nat) : Nat :=
  (data.foldl crc32Byte 0xFFFFFFFF) ^^^ 0xFFFFFFFF

/-- Addresses are identified by their `String()` form, which is also the
connection-pool key. -/
abbrev Addr := String

/-- Models `GoServer.PickServer`: no address → `ErrNoServer`; one address → that
address; otherwise index by the IEEE CRC-32 of the key modulo the address
count.  The Go code indexes the slice directly; the index is
`cs % len(addrs) < len(addrs)`, so `getD` never takes its default. -/
def PickServer (addrs : List Addr) (key : List Nat) : Except MemErr Addr :=
  if addrs.length = 0 then Except.error MemErr.noServer
  else if addrs.length = 1 then Except.ok (addrs.getD 0 "")
  else Except.ok (addrs.getD (crc32 key % addrs.length) "")

/-- Models `strings.Contains(server, "/")`. -/
def containsSlash (server : String) : Bool :=
  server.toList.any (fun ch => ch == '/')

/-- One iteration of `SetServers`' resolution loop: a server string
containing `/` is resolved as a Unix path, any other as TCP.  The two
resolvers (`net.ResolveUnixAddr` / `net.ResolveTCPAddr`) are parameters of
the model. -/
def resolveOne (ru rt : String → Except MemErr Addr) (server : String) :
    Except MemErr Addr :=
  if containsSlash server then ru server else rt server

/-- Models `SetServers`' loop building `naddr`: resolve each entry in order,
returning the first failure (the partial list is discarded). -/
def resolveServers (ru rt : String → Except MemErr Addr) :
    List String → Except MemErr (List Addr)
  | [] => Except.ok []
  | s :: rest =>
    match resolveOne ru rt s with
    | Except.error e => Except.error e
    | Except.ok a =>
      match resolveServers ru rt rest with
      | Except.error e => Except.error e
      | Except.ok as => Except.ok (a :: as)

/-- Models `GoServer.SetServers` as a state transformer on the address list:
on any resolution failure the call fails and `gs.addrs` is untouched (the
assignment happens only after the loop); on success the list is replaced. -/
def SetServers (ru rt : String → Except MemErr Addr) (old : List Addr)
    (servers : List String) : Except MemErr Unit × List Addr :=
  match resolveServers ru rt servers with
  | Except.error e => (Except.error e, old)
  | Except.ok naddr => (Except.ok (), naddr)

/-- A pooled connection: `id` identifies the underlying socket, `addr` is
the address it was dialed to, `conn` its stream state. -/
structure GoConnM where
  id : Nat
  addr : Addr
  conn : Conn
  deriving DecidableEq, Repr

/-- Client state: the selector's address list, the free-connection map
`connPool` (an association list keyed by `addr.String()`), the ids of
sockets on which `conn.Close()` has been called, and a counter for fresh
socket ids. -/
structure ClientState where
  addrs : List Addr
  connPool : List (Addr × List GoConnM)
  closedIds : List Nat
  nextId : Nat
  deriving DecidableEq, Repr

/-- Look up an address's free list (a missing entry reads as the empty
list, as a Go map does). -/
def poolGet (p : List (Addr × List GoConnM)) (a : Addr) : List GoConnM :=
  match p.find? (fun kv => kv.1 == a) with
  | none => []
  | some kv => kv.2

/-- Store an address's free list. -/
def poolSet (p : List (Addr × List GoConnM)) (a : Addr)
    (l : List GoConnM) : List (Addr × List GoConnM) :=
  match p with
  | [] => [(a, l)]
  | kv :: rest => if kv.1 == a then (a, l) :: rest else kv :: poolSet rest a l

/-- Models `DEFAULT_FREE_GO_CONN_NUM = 5`. -/
def DEFAULT_FREE_GO_CONN_NUM : Nat := 5

/-- Models `putFreeGoConnToPool`: if the address's free list already holds
`DEFAULT_FREE_GO_CONN_NUM` connections, close the incoming one instead of
pooling it; otherwise append it. -/
def putFreeGoConnToPool (st : ClientState) (g : GoConnM) : ClientState :=
  let freelist := poolGet st.connPool g.addr
  if freelist.length ≥ DEFAULT_FREE_GO_CONN_NUM then
    { st with closedIds := g.id :: st.closedIds }
  else
    { st with connPool := poolSet st.connPool g.addr (freelist ++ [g]) }

/-- Models `getFreeGoConnFromPool`: pop the last element of the address's free
list, or report none. -/
def getFreeGoConnFromPool (st : ClientState) (a : Addr) :
    Option GoConnM × ClientState :=
  let freelist := poolGet st.connPool a
  if freelist.length = 0 then (none, st)
  else (freelist.getLast?,
        { st with connPool := poolSet st.connPool a freelist.dropLast })

/-- Models `getGoConn`: reuse a pooled connection when one exists, otherwise dial.
The network is the parameter `dial`, giving for an address either the byte
stream a fresh connection will receive or a dial failure.
`extendDeadline` only touches the socket deadline and has no effect in the
model (time is not modelled). -/
def getGoConn (dial : Addr → Option (List Nat)) (st : ClientState)
    (a : Addr) : Except MemErr GoConnM × ClientState :=
  match getFreeGoConnFromPool st a with
  | (some g, st1) => (Except.ok g, st1)
  | (none, st1) =>
    match dial a with
    | none => (Except.error MemErr.dialErr, st1)
    | some bytesIn =>
      (Except.ok { id := st1.nextId, addr := a,
                   conn := { input := bytesIn, wbuf := [], sent := [] } },
       { st1 with nextId := st1.nextId + 1 })

/-- Models `condRelease`: pool the connection when the error it is passed is
resumable, close it otherwise. -/
def condRelease (st : ClientState) (g : GoConnM) (err : Option MemErr) :
    ClientState :=
  if resumeableError err then putFreeGoConnToPool st g
  else { st with closedIds := g.id :: st.closedIds }

/-- Result of a client call.  `panicked` models a Go runtime panic (nil
pointer dereference) escaping the call. -/
inductive Res (α : Type) where
  | ok (a : α)
  | err (e : MemErr)
  | panicked
  deriving DecidableEq, Repr

/-- Is a byte an ASCII decimal digit? -/
def isDigitByte (b : Nat) : Bool := 48 ≤ b && b ≤ 57

/-- Parse a non-empty all-digit byte list as a natural number. -/
def parseNatBytes (bs : List Nat) : Option Nat :=
  if bs ≠ [] && bs.all isDigitByte then
    some (bs.foldl (fun acc b => acc * 10 + (b - 48)) 0)
  else none

/-- Split a byte list at the first occurrence of `sep`, dropping the
separator. -/
def splitFirst (sep : Nat) : List Nat → Option (List Nat × List Nat)
  | [] => none
  | b :: rest =>
    if b = sep then some ([], rest)
    else
      match splitFirst sep rest with
      | none => none
      | some (l, r) => some (b :: l, r)

/-- Models `fmt.Sscanf(line, "VALUE %s %d %d\r\n", &key, &flags, &size)`: succeeds
exactly on a line `VALUE <token> <flags> <size>\r\n` with `<token>`
space-free and the two numbers unsigned decimals fitting `uint32`; any
other line is a scan failure.  Returns the scanned key token, flags and
size. -/
def scanValueLine (line : List Nat) : Option (List Nat × Nat × Nat) :=
  if line.take 6 = strBytes "VALUE " then
    match splitFirst 32 (line.drop 6) with
    | none => none
    | some (k, rest1) =>
      match splitFirst 32 rest1 with
      | none => none
      | some (fbs, rest2) =>
        if CTRL.isSuffixOf rest2 then
          match parseNatBytes fbs,
                parseNatBytes (rest2.take (rest2.length - 2)) with
          | some f, some s =>
            if f < 2 ^ 32 && s < 2 ^ 32 && k ≠ [] then some (k, f, s)
            else none
          | _, _ => none
        else none
  else none

/-- The request line written by `parseStorePostAndResponse`:
`"<cmd> <key> <flags> <exporation> <len(value)>\r\n"`. -/
def storeRequestBytes (command : List Nat) (item : Item) : List Nat :=
  command ++ SPACE ++ item.Key ++ SPACE ++ natToBytes item.Flags ++ SPACE ++
    intToBytes item.Exporation ++ SPACE ++ natToBytes item.Value.length ++ CTRL

/-- Models `parseStorePostAndResponse`: write the request line, the value block and
a trailing CRLF, flush, read one line, and map it — `STORED` → nil,
`NOT_STORED` → `ErrNotStored`, `NOT_FOUND` → `ErrCacheMiss`, anything else
→ `fmt.Errorf("%s", line)`. -/
def parseStorePostAndResponse (command : List Nat) (c : Conn) (item : Item) :
    Option MemErr × Conn :=
  let c1 := c.write (storeRequestBytes command item)
  let c2 := c1.write item.Value
  let c3 := c2.write CTRL
  let c4 := c3.flush
  match c4.readSlice with
  | Except.error e => (some e, c4)
  | Except.ok (line, c5) =>
    if line = RESULT_STORED then (none, c5)
    else if line = RESULT_NOT_STORED then (some MemErr.notStored, c5)
    else if line = RESULT_NOT_FOUND then (some MemErr.cacheMiss, c5)
    else (some (MemErr.errorf line), c5)

/-- Models `onItem`: validate the key, pick a server, get a connection, run `fn`.
Go registers `defer gconn.condRelease(err)` right after the successful
`getGoConn`; a deferred call's arguments are evaluated at the `defer`
statement, and `err` is nil at that point, so the deferred release always
sees a nil error whatever `fn` later returns. -/
def onItem (dial : Addr → Option (List Nat)) (st : ClientState) (item : Item)
    (fn : Conn → Item → Option MemErr × Conn) : Option MemErr × ClientState :=
  if checkKey item.Key ≠ none then (some MemErr.malformedKey, st)
  else
    match PickServer st.addrs item.Key with
    | Except.error e => (some e, st)
    | Except.ok addr =>
      match getGoConn dial st addr with
      | (Except.error e, st1) => (some e, st1)
      | (Except.ok gconn, st1) =>
        let deferredErr : Option MemErr := none
        let (res, conn2) := fn gconn.conn item
        (res, condRelease st1 { gconn with conn := conn2 } deferredErr)

/-- Models `Add`. -/
def Add (dial : Addr → Option (List Nat)) (st : ClientState) (item : Item) :
    Option MemErr × ClientState :=
  onItem dial st item (parseStorePostAndResponse (strBytes "add"))

/-- Models `Set`. -/
def Set (dial : Addr → Option (List Nat)) (st : ClientState) (item : Item) :
    Option MemErr × ClientState :=
  onItem dial st item (parseStorePostAndResponse (strBytes "set"))

/-- Models `Replace`. -/
def Replace (dial : Addr → Option (List Nat)) (st : ClientState)
    (item : Item) : Option MemErr × ClientState :=
  onItem dial st item (parseStorePostAndResponse (strBytes "replace"))

/-- Models `getGoConnWithKey`: pick a server for the key (no key validation
happens here) and get a connection for it. -/
def getGoConnWithKey (dial : Addr → Option (List Nat)) (st : ClientState)
    (key : List Nat) : Except MemErr GoConnM × ClientState :=
  match PickServer st.addrs key with
  | Except.error e => (Except.error e, st)
  | Except.ok addr => getGoConn dial st addr

/-- Models `parseGetResponse`: write `"get <key>\r\n"`, flush, read one line, scan
it as `VALUE %s %d %d\r\n` — the scan error is discarded unchecked (the
code reassigns `err` on the next line), so on a scan failure `key` keeps
the argument and `flags`/`size` stay zero — read `size+2` bytes, require a
CRLF suffix (else `fmt.Errorf("error bad result ....")`), slice the value
(`vas[:size]` panics when `vas` is shorter than `size`), and read one more
line. -/
def parseGetResponse (c : Conn) (key : List Nat) : Res Item × Conn :=
  let c1 := c.write (strBytes "get " ++ key ++ CTRL)
  let c2 := c1.flush
  match c2.readSlice with
  | Except.error e => (Res.err e, c2)
  | Except.ok (line, c3) =>
    let scanned := match scanValueLine line with
      | some kfs => kfs
      | none => (key, 0, 0)
    let key2 := scanned.1
    let flags := scanned.2.1
    let size := scanned.2.2
    let (vas, c4) := c3.readN (size + 2)
    if CTRL.isSuffixOf vas then
      if size ≤ vas.length then
        let val := vas.take size
        match c4.readSlice with
        | Except.error e => (Res.err e, c4)
        | Except.ok (_, c5) =>
          (Res.ok { Key := key2, Value := val, Flags := flags,
                    Exporation := 0 }, c5)
      else (Res.panicked, c4)
    else (Res.err (MemErr.errorf (strBytes "error bad result ....")), c4)

/-- Models `Get`: `gconn, err := gc.getGoConnWithKey(key)` is not error-checked;
when it fails `gconn` is nil and the call `gc.parseGetResponse(gconn.rw,
key)` dereferences the nil pointer and panics.  On success the deferred
`condRelease(err)` captures the nil `err` of the successful acquisition,
so the connection is always pooled, whatever the exchange returned. -/
def Get (dial : Addr → Option (List Nat)) (st : ClientState)
    (key : List Nat) : Res Item × ClientState :=
  match getGoConnWithKey dial st key with
  | (Except.error _, st1) => (Res.panicked, st1)
  | (Except.ok gconn, st1) =>
    let (res, conn2) := parseGetResponse gconn.conn key
    (res, condRelease st1 { gconn with conn := conn2 } none)

/-- Models `Delete`'s exchange after the connection is acquired: write
`"delete <key> 0\r\n"`, flush (the flush error is discarded), read one
line; `DELETED` → nil, `NOT_FOUND` → `fmt.Errorf(string(RESULT_NOT_FOUND))`
(a fresh error, not the `ErrCacheMiss` sentinel); any other line reaches
`fmt.Errorf(err.Error())` with `err == nil` — calling `Error()` on a nil
interface panics. -/
def deleteExchange (key : List Nat) (c : Conn) : Res Unit × Conn :=
  let c1 := c.write (strBytes "delete " ++ key ++ SPACE ++ natToBytes 0 ++ CTRL)
  let c2 := c1.flush
  match c2.readSlice with
  | Except.error e => (Res.err e, c2)
  | Except.ok (line, c3) =>
    if line = RESULT_DELETE_OK then (Res.ok (), c3)
    else if line = RESULT_NOT_FOUND then
      (Res.err (MemErr.errorf RESULT_NOT_FOUND), c3)
    else (Res.panicked, c3)

/-- Models `Delete`: acquire a connection by key (checked here, unlike `Get`),
run the exchange; the deferred `condRelease(err)` again captures the nil
acquisition error. -/
def Delete (dial : Addr → Option (List Nat)) (st : ClientState)
    (key : List Nat) : Res Unit × ClientState :=
  match getGoConnWithKey dial st key with
  | (Except.error e, st1) => (Res.err e, st1)
  | (Except.ok gconn, st1) =>
    let (res, conn2) := deleteExchange key gconn.conn
    (res, condRelease st1 { gconn with conn := conn2 } none)

/-- Models `fmt.Sscanf(line, "%d\r\n", &res)` with `res` a `uint32`: leading
spaces are skipped by `%d`, then a non-empty run of decimal digits whose
value fits `uint32`, then the line terminator (`\r\n` in the format matches
a `\r\n` or bare `\n` terminated input). -/
def parseUintLine (line : List Nat) : Option Nat :=
  let l1 := line.dropWhile (fun b => b = 32)
  let ds := if CTRL.isSuffixOf l1 then some (l1.take (l1.length - 2))
            else if [10].isSuffixOf l1 then some (l1.take (l1.length - 1))
            else none
  match ds with
  | none => none
  | some ds =>
    match parseNatBytes ds with
    | none => none
    | some v => if v < 2 ^ 32 then some v else none

/-- Models `responseIncrAndDecr`: write `"<cmd> <key> <step>\r\n"`, flush, read
one line; `NOT_FOUND` → `fmt.Errorf(string(RESULT_NOT_FOUND))` (a fresh
error, not the `ErrCacheMiss` sentinel); otherwise scan the line as
`"%d\r\n"` — scan failure returns the scan error, success the value. -/
def responseIncrAndDecr (command key : List Nat) (step : Nat) (c : Conn) :
    Res Nat × Conn :=
  let c1 := c.write (command ++ SPACE ++ key ++ SPACE ++ natToBytes step ++ CTRL)
  let c2 := c1.flush
  match c2.readSlice with
  | Except.error e => (Res.err e, c2)
  | Except.ok (line, c3) =>
    if line = RESULT_NOT_FOUND then
      (Res.err (MemErr.errorf RESULT_NOT_FOUND), c3)
    else
      match parseUintLine line with
      | none => (Res.err MemErr.scanErr, c3)
      | some v => (Res.ok v, c3)

/-- Models `Incr`: acquire a connection by key (checked), run the counter
exchange; the deferred `condRelease(err)` captures the nil acquisition
error. -/
def Incr (dial : Addr → Option (List Nat)) (st : ClientState)
    (key : List Nat) (step : Nat) : Res Nat × ClientState :=
  match getGoConnWithKey dial st key with
  | (Except.error e, st1) => (Res.err e, st1)
  | (Except.ok gconn, st1) =>
    let (res, conn2) := responseIncrAndDecr (strBytes "incr") key step gconn.conn
    (res, condRelease st1 { gconn with conn := conn2 } none)

/-- Models `Decr`, identical to `Incr` with the `decr` command. -/
def Decr (dial : Addr → Option (List Nat)) (st : ClientState)
    (key : List Nat) (step : Nat) : Res Nat × ClientState :=
  match getGoConnWithKey dial st key with
  | (Except.error e, st1) => (Res.err e, st1)
  | (Except.ok gconn, st1) =>
    let (res, conn2) := responseIncrAndDecr (strBytes "decr") key step gconn.conn
    (res, condRelease st1 { gconn with conn := conn2 } none)

/-! ## Theorems about the claims -/

/-- A network on which every dial succeeds and the server answers every
request with the line `ERROR\r\n`. -/
def errDial : Addr → Option (List Nat) := fun _ => some (strBytes "ERROR\r\n")

/-- A fresh client configured with one server and an empty pool. -/
def oneSrvState : ClientState :=
  { addrs := ["srv"], connPool := [], closedIds := [], nextId := 0 }

/-- The item stored by the repository's own test. -/
def dogItem : Item :=
  { Key := strBytes "dog", Value := strBytes "abc", Flags := 0, Exporation := 60 }

/-- C1: for every keyed operation, a fatal error (neither nil nor
cache-miss / not-stored / cas-conflict / malformed-key) closes the
connection and never returns it to the pool.  The code violates this:
`defer gconn.condRelease(err)` evaluates `err` when the defer is
registered, where it is nil, so the release never sees the exchange's
error.  Concretely, `Set` against a server answering `ERROR\r\n` ends in a
fatal error, yet the connection lands on the free list, is never closed,
and is handed out again by the next acquisition. -/
theorem set_fatal_error_connection_still_pooled :
    (Set errDial oneSrvState dogItem).1
        = some (MemErr.errorf (strBytes "ERROR\r\n")) ∧
    resumeableError (Set errDial oneSrvState dogItem).1 = false ∧
    (poolGet (Set errDial oneSrvState dogItem).2.connPool "srv").map GoConnM.id
        = [0] ∧
    (Set errDial oneSrvState dogItem).2.closedIds = [] ∧
    (getFreeGoConnFromPool (Set errDial oneSrvState dogItem).2 "srv").1.map
        GoConnM.id = some 0 := by
  decide

/-- C2: when the first line read by `Get` is exactly `END\r\n` the
operation should fail with cache-miss.  The code never compares the line
with `RESULT_END` and discards the `Sscanf` error unchecked, so `size`
stays 0, the two-byte read hits end of stream, the CRLF-suffix check fails
and the result is the fresh error `error bad result ....` — not
`ErrCacheMiss`. -/
theorem get_end_line_is_not_cache_miss :
    (parseGetResponse ⟨strBytes "END\r\n", [], []⟩ (strBytes "dog")).1
        = Res.err (MemErr.errorf (strBytes "error bad result ....")) ∧
    (parseGetResponse ⟨strBytes "END\r\n", [], []⟩ (strBytes "dog")).1
        ≠ Res.err MemErr.cacheMiss := by
  decide

theorem checkKeyLoop_malformed_iff (key : List Nat) :
    checkKeyLoop key = some MemErr.malformedKey ↔
      ∃ b ∈ key, b ≤ 0x20 ∨ 0x7f ≤ b := by
  induction key with
  | nil => simp [checkKeyLoop]
  | cons v rest ih =>
    by_cases h : v ≤ 0x20 ∨ 0x7f ≤ v
    · simp [checkKeyLoop, h]
    · simp [checkKeyLoop, h, ih]

theorem checkKeyLoop_none_iff (key : List Nat) :
    checkKeyLoop key = none ↔ ¬ ∃ b ∈ key, b ≤ 0x20 ∨ 0x7f ≤ b := by
  induction key with
  | nil => simp [checkKeyLoop]
  | cons v rest ih =>
    by_cases h : v ≤ 0x20 ∨ 0x7f ≤ v
    · simp [checkKeyLoop, h]
    · simp [checkKeyLoop, h, ih]

/-- C5 counterexample: the claim says validation fails on the empty key,
but `checkKey` accepts it — the length test passes and the scan loop runs
zero times. -/
theorem checkKey_accepts_empty_key :
    checkKey [] = none ∧ checkKey [] ≠ some MemErr.malformedKey := by
  decide

/-- C5 (amended): key validation fails with malformed-key exactly when the
key is longer than 250 bytes or contains a byte ≤ 0x20 or ≥ 0x7F; every
other key — the empty key included — is accepted. -/
theorem checkKey_spec (key : List Nat) :
    (checkKey key = some MemErr.malformedKey ↔
      (250 < key.length ∨ ∃ b ∈ key, b ≤ 0x20 ∨ 0x7f ≤ b)) ∧
    (checkKey key = none ↔
      ¬ (250 < key.length ∨ ∃ b ∈ key, b ≤ 0x20 ∨ 0x7f ≤ b)) := by
  unfold checkKey
  by_cases h : key.length > 250
  · simp [h]
  · have h' : ¬ 250 < key.length := h
    simp [h, h', checkKeyLoop_malformed_iff, checkKeyLoop_none_iff]

/-- A network on which every dial succeeds and the server answers with
`END\r\n`. -/
def endDial : Addr → Option (List Nat) := fun _ => some (strBytes "END\r\n")

/-- C3 counterexample: the claim covers every keyed operation, but `Get`
(like `Delete`, `Incr`, `Decr`) goes through `getGoConnWithKey`, which
never calls `checkKey`.  On the invalid key `"a b"` (it contains a space,
and `checkKey` would reject it) `Get` does not fail with malformed-key: it
picks a server, dials a connection (`nextId` advances) and performs the
exchange. -/
theorem get_does_not_validate_key :
    checkKey (strBytes "a b") = some MemErr.malformedKey ∧
    (Get endDial oneSrvState (strBytes "a b")).1
        ≠ Res.err MemErr.malformedKey ∧
    (Get endDial oneSrvState (strBytes "a b")).2.nextId = 1 ∧
    (Get endDial oneSrvState (strBytes "a b")).2.connPool ≠ [] := by
  decide

/-- C3 (amended): for the store family (`Add`, `Set`, `Replace`, all
running through `onItem`), an invalid key fails with malformed-key before
server selection, and the client state is untouched — no connection is
acquired and no network I/O is attempted, whatever the network would
answer.  `Get`, `Delete`, `Incr` and `Decr` perform no key validation at
all. -/
theorem onItem_rejects_invalid_key (dial : Addr → Option (List Nat))
    (st : ClientState) (item : Item)
    (fn : Conn → Item → Option MemErr × Conn)
    (h : checkKey item.Key ≠ none) :
    onItem dial st item fn = (some MemErr.malformedKey, st) := by
  simp only [onItem, if_pos h]

theorem onItem_rejects_invalid_key_witness :
    checkKey (strBytes "a b") ≠ none ∧
    onItem endDial oneSrvState { dogItem with Key := strBytes "a b" }
        (parseStorePostAndResponse (strBytes "set"))
      = (some MemErr.malformedKey, oneSrvState) :=
  ⟨by decide,
   onItem_rejects_invalid_key endDial oneSrvState
     { dogItem with Key := strBytes "a b" }
     (parseStorePostAndResponse (strBytes "set")) (by decide)⟩

/-- C4: `Delete` is claimed to map `DELETED\r\n` to success, `NOT_FOUND\r\n`
to the cache-miss error, and any other line to an error.  The code writes
and flushes `delete <key> 0\r\n` and maps `DELETED\r\n` to success, but on
`NOT_FOUND\r\n` it returns the fresh error `fmt.Errorf(string(RESULT_NOT_FOUND))`,
which is not the `ErrCacheMiss` sentinel, and on any other line it reaches
`fmt.Errorf(err.Error())` with `err == nil`, a nil-interface call that
panics instead of returning an error. -/
theorem delete_response_divergence :
    (deleteExchange (strBytes "dog") ⟨strBytes "DELETED\r\n", [], []⟩).1
        = Res.ok () ∧
    (deleteExchange (strBytes "dog") ⟨strBytes "DELETED\r\n", [], []⟩).2.sent
        = strBytes "delete dog 0\r\n" ∧
    (deleteExchange (strBytes "dog") ⟨strBytes "NOT_FOUND\r\n", [], []⟩).1
        = Res.err (MemErr.errorf RESULT_NOT_FOUND) ∧
    (deleteExchange (strBytes "dog") ⟨strBytes "NOT_FOUND\r\n", [], []⟩).1
        ≠ Res.err MemErr.cacheMiss ∧
    (deleteExchange (strBytes "dog") ⟨strBytes "SERVER_ERROR oom\r\n", [], []⟩).1
        = Res.panicked := by
  decide

/-- C6: `PickServer` is a deterministic function of the key and the
current address list — the no-server error on an empty list, the sole
address when there is exactly one, and `addrs[crc32(key) mod n]` for `n ≥ 2`;
two calls with no intervening `SetServers` agree. -/
theorem pickServer_spec (addrs : List Addr) (key : List Nat) :
    (addrs = [] → PickServer addrs key = Except.error MemErr.noServer) ∧
    (∀ a, addrs = [a] → PickServer addrs key = Except.ok a) ∧
    (2 ≤ addrs.length →
      PickServer addrs key
        = Except.ok (addrs.getD (crc32 key % addrs.length) "")) ∧
    PickServer addrs key = PickServer addrs key := by
  refine ⟨?_, ?_, ?_, rfl⟩
  · intro h; subst h; rfl
  · intro a h; subst h; rfl
  · intro h
    have h0 : addrs.length ≠ 0 := by omega
    have h1 : addrs.length ≠ 1 := by omega
    simp [PickServer, h0, h1]

theorem pickServer_spec_witness :
    PickServer [] (strBytes "dog") = Except.error MemErr.noServer ∧
    PickServer ["a"] (strBytes "dog") = Except.ok "a" ∧
    PickServer ["a", "b", "c"] (strBytes "dog")
      = Except.ok ((["a", "b", "c"] : List Addr).getD
          (crc32 (strBytes "dog") % (["a", "b", "c"] : List Addr).length) "") ∧
    PickServer ["a", "b", "c"] (strBytes "dog") = Except.ok "b" :=
  ⟨(pickServer_spec [] (strBytes "dog")).1 rfl,
   (pickServer_spec ["a"] (strBytes "dog")).2.1 "a" rfl,
   (pickServer_spec ["a", "b", "c"] (strBytes "dog")).2.2.1 (by decide),
   by rfl⟩

/-- C7 counterexample: the claim says `NOT_FOUND\r\n` yields the cache-miss
error, but `responseIncrAndDecr` returns
`fmt.Errorf(string(RESULT_NOT_FOUND))`, a fresh error distinct from the
`ErrCacheMiss` sentinel. -/
theorem incr_not_found_is_not_cache_miss :
    (responseIncrAndDecr (strBytes "incr") (strBytes "num") 100
        ⟨strBytes "NOT_FOUND\r\n", [], []⟩).1
      = Res.err (MemErr.errorf RESULT_NOT_FOUND) ∧
    (responseIncrAndDecr (strBytes "incr") (strBytes "num") 100
        ⟨strBytes "NOT_FOUND\r\n", [], []⟩).1
      ≠ Res.err MemErr.cacheMiss := by
  decide

/-- C7 (amended): after writing `<cmd> <key> <amount>\r\n` and flushing,
reading one line gives: an error carrying the raw `NOT_FOUND\r\n` line
(not the cache-miss sentinel) when the line is `NOT_FOUND\r\n`; otherwise
the line is parsed as an unsigned decimal integer followed by CRLF, a
parse failure yields the scan error and a successful parse returns the
integer. -/
theorem incrDecr_response_spec (command key : List Nat) (step : Nat)
    (c : Conn) (line rest : List Nat)
    (h : splitAtNL c.input = some (line, rest)) :
    (line = RESULT_NOT_FOUND →
      (responseIncrAndDecr command key step c).1
        = Res.err (MemErr.errorf RESULT_NOT_FOUND)) ∧
    (line ≠ RESULT_NOT_FOUND → parseUintLine line = none →
      (responseIncrAndDecr command key step c).1 = Res.err MemErr.scanErr) ∧
    (∀ v, line ≠ RESULT_NOT_FOUND → parseUintLine line = some v →
      (responseIncrAndDecr command key step c).1 = Res.ok v) ∧
    (responseIncrAndDecr command key step c).2.sent
      = c.sent ++ c.wbuf ++
          (command ++ SPACE ++ key ++ SPACE ++ natToBytes step ++ CTRL) := by
  refine ⟨?_, ?_, ?_, ?_⟩
  · intro hl
    simp [responseIncrAndDecr, Conn.write, Conn.flush, Conn.readSlice, h, hl]
  · intro hl hp
    simp [responseIncrAndDecr, Conn.write, Conn.flush, Conn.readSlice, h, hl, hp]
  · intro v hl hp
    simp [responseIncrAndDecr, Conn.write, Conn.flush, Conn.readSlice, h, hl, hp]
  · simp only [responseIncrAndDecr, Conn.write, Conn.flush, Conn.readSlice, h]
    split
    · simp [List.append_assoc]
    · split <;> simp [List.append_assoc]

theorem incrDecr_response_spec_witness :
    splitAtNL (strBytes "102\r\n") = some (strBytes "102\r\n", []) ∧
    strBytes "102\r\n" ≠ RESULT_NOT_FOUND ∧
    parseUintLine (strBytes "102\r\n") = some 102 ∧
    (responseIncrAndDecr (strBytes "incr") (strBytes "num") 100
        ⟨strBytes "102\r\n", [], []⟩).1 = Res.ok 102 :=
  ⟨by decide, by decide, by decide,
   (incrDecr_response_spec (strBytes "incr") (strBytes "num") 100
      ⟨strBytes "102\r\n", [], []⟩ (strBytes "102\r\n") []
      (by decide)).2.2.1 102 (by decide) (by decide)⟩

/-- The address `SetServers` stores for a server string that resolved
successfully (the loop writes the resolver's result into `naddr`). -/
def resolvedAddr (ru rt : String → Except MemErr Addr) (s : String) : Addr :=
  match resolveOne ru rt s with
  | Except.ok a => a
  | Except.error _ => ""

theorem resolveServers_ok_of_all (ru rt : String → Except MemErr Addr)
    (servers : List String)
    (h : ∀ s ∈ servers, ∃ a, resolveOne ru rt s = Except.ok a) :
    resolveServers ru rt servers
      = Except.ok (servers.map (resolvedAddr ru rt)) := by
  induction servers with
  | nil => rfl
  | cons s rest ih =>
    obtain ⟨a, ha⟩ := h s (by simp)
    have hrest := ih (fun x hx => h x (by simp [hx]))
    simp [resolveServers, ha, hrest, resolvedAddr]

theorem resolveServers_error_of_exists (ru rt : String → Except MemErr Addr)
    (servers : List String)
    (h : ∃ s ∈ servers, ∃ e, resolveOne ru rt s = Except.error e) :
    ∃ e, resolveServers ru rt servers = Except.error e := by
  induction servers with
  | nil => simp at h
  | cons s rest ih =>
    obtain ⟨x, hx, e, he⟩ := h
    rcases List.mem_cons.mp hx with rfl | hx'
    · exact ⟨e, by simp [resolveServers, he]⟩
    · cases hs : resolveOne ru rt s with
      | error e1 => exact ⟨e1, by simp [resolveServers, hs]⟩
      | ok a =>
        obtain ⟨e2, he2⟩ := ih ⟨x, hx', e, he⟩
        exact ⟨e2, by simp [resolveServers, hs, he2]⟩

/-- C8: `SetServers` is all-or-nothing — if any entry fails to resolve the
whole call fails and the previous address set is returned unchanged; if
every entry resolves the address set is replaced by the resolved list in
full. -/
theorem setServers_all_or_nothing (ru rt : String → Except MemErr Addr)
    (old : List Addr) (servers : List String) :
    ((∃ s ∈ servers, ∃ e, resolveOne ru rt s = Except.error e) →
      ∃ e, SetServers ru rt old servers = (Except.error e, old)) ∧
    ((∀ s ∈ servers, ∃ a, resolveOne ru rt s = Except.ok a) →
      SetServers ru rt old servers
        = (Except.ok (), servers.map (resolvedAddr ru rt))) := by
  constructor
  · intro h
    obtain ⟨e, he⟩ := resolveServers_error_of_exists ru rt servers h
    exact ⟨e, by simp [SetServers, he]⟩
  · intro h
    simp [SetServers, resolveServers_ok_of_all ru rt servers h]

/-- A TCP resolver that succeeds with the input string itself. -/
def okTCP : String → Except MemErr Addr := fun s => Except.ok s

/-- A Unix resolver that always fails. -/
def failUnix : String → Except MemErr Addr := fun _ => Except.error MemErr.noServer

theorem setServers_all_or_nothing_witness :
    (∃ e, SetServers failUnix okTCP ["old:1"] ["h:1", "u/x"]
        = (Except.error e, ["old:1"])) ∧
    SetServers failUnix okTCP ["old:1"] ["h:1", "h:2"]
        = (Except.ok (), ["h:1", "h:2"]) := by
  constructor
  · exact (setServers_all_or_nothing failUnix okTCP ["old:1"] ["h:1", "u/x"]).1
      ⟨"u/x", by simp, MemErr.noServer, by rfl⟩
  · have h := (setServers_all_or_nothing failUnix okTCP ["old:1"]
        ["h:1", "h:2"]).2 (by
      intro s hs
      simp only [List.mem_cons, List.not_mem_nil, or_false] at hs
      rcases hs with rfl | rfl
      · exact ⟨"h:1", by rfl⟩
      · exact ⟨"h:2", by rfl⟩)
    simpa [resolvedAddr, resolveOne, containsSlash, okTCP] using h

/-- C9: `parseStorePostAndResponse` writes the request line, the data block
and its CRLF, flushes, and maps the single response line — `STORED\r\n` to
success, `NOT_STORED\r\n` to the not-stored error, `NOT_FOUND\r\n` to the
cache-miss error, and any other line to an error carrying the raw line as
detail. -/
theorem store_response_spec (command : List Nat) (c : Conn) (item : Item)
    (line rest : List Nat) (h : splitAtNL c.input = some (line, rest)) :
    (line = RESULT_STORED →
      (parseStorePostAndResponse command c item).1 = none) ∧
    (line = RESULT_NOT_STORED →
      (parseStorePostAndResponse command c item).1 = some MemErr.notStored) ∧
    (line = RESULT_NOT_FOUND →
      (parseStorePostAndResponse command c item).1 = some MemErr.cacheMiss) ∧
    (line ≠ RESULT_STORED → line ≠ RESULT_NOT_STORED →
      line ≠ RESULT_NOT_FOUND →
      (parseStorePostAndResponse command c item).1
        = some (MemErr.errorf line)) ∧
    (parseStorePostAndResponse command c item).2.sent
      = c.sent ++ c.wbuf ++ storeRequestBytes command item ++
          item.Value ++ CTRL := by
  refine ⟨?_, ?_, ?_, ?_, ?_⟩
  · intro hl
    simp [parseStorePostAndResponse, Conn.write, Conn.flush, Conn.readSlice,
      h, hl]
  · intro hl
    simp only [parseStorePostAndResponse, Conn.write, Conn.flush,
      Conn.readSlice, h, hl]
    rw [if_neg (by decide)]
    simp
  · intro hl
    simp only [parseStorePostAndResponse, Conn.write, Conn.flush,
      Conn.readSlice, h, hl]
    rw [if_neg (by decide), if_neg (by decide)]
    simp
  · intro h1 h2 h3
    simp [parseStorePostAndResponse, Conn.write, Conn.flush, Conn.readSlice,
      h, h1, h2, h3]
  · simp only [parseStorePostAndResponse, Conn.write, Conn.flush,
      Conn.readSlice, h]
    split
    · simp [List.append_assoc]
    · split
      · simp [List.append_assoc]
      · split <;> simp [List.append_assoc]

theorem store_response_spec_witness :
    splitAtNL (strBytes "NOT_STORED\r\n")
      = some (strBytes "NOT_STORED\r\n", []) ∧
    (parseStorePostAndResponse (strBytes "add")
        ⟨strBytes "NOT_STORED\r\n", [], []⟩ dogItem).1
      = some MemErr.notStored :=
  ⟨by decide,
   (store_response_spec (strBytes "add")
      ⟨strBytes "NOT_STORED\r\n", [], []⟩ dogItem
      (strBytes "NOT_STORED\r\n") [] (by decide)).2.1 (by decide)⟩

/-- A network on which every dial fails. -/
def noDial : Addr → Option (List Nat) := fun _ => none

/-- A client with no configured servers. -/
def emptyState : ClientState :=
  { addrs := [], connPool := [], closedIds := [], nextId := 0 }

/-- C10: when connection acquisition fails — no configured servers, or the
dial fails — `Get` does not return the underlying error: the unchecked
`gconn` is nil and `gconn.rw` in the `parseGetResponse` call (and the nil
receiver of the deferred `condRelease`) dereferences a nil pointer, so the
call panics. -/
theorem get_panics_when_acquisition_fails (dial : Addr → Option (List Nat))
    (st : ClientState) (key : List Nat) :
    (st.addrs = [] → Get dial st key = (Res.panicked, st)) ∧
    (∀ a, PickServer st.addrs key = Except.ok a →
      getFreeGoConnFromPool st a = (none, st) → dial a = none →
      Get dial st key = (Res.panicked, st)) := by
  constructor
  · intro h
    have hp : PickServer st.addrs key = Except.error MemErr.noServer := by
      simp [PickServer, h]
    simp [Get, getGoConnWithKey, hp]
  · intro a hp hf hd
    simp [Get, getGoConnWithKey, hp, getGoConn, hf, hd]

theorem get_panics_witness :
    Get noDial emptyState (strBytes "dog") = (Res.panicked, emptyState) ∧
    Get noDial oneSrvState (strBytes "dog") = (Res.panicked, oneSrvState) :=
  ⟨(get_panics_when_acquisition_fails noDial emptyState (strBytes "dog")).1
      rfl,
   (get_panics_when_acquisition_fails noDial oneSrvState (strBytes "dog")).2
      "srv" (by rfl) (by rfl) rfl⟩

end Gomemcached





